import Mathlib

/-!
Shallow embedding of the AstroTrace SDR core (src/SDR/signal_processing.py,
src/SDR/sdr_ingest.py, src/core/{logger,bundles,sigmf,scanner,multi_demod}.py)
and proofs about the spec's claims.

Machine floats are modelled by exact rationals; the transcendental kernels
(sqrt, exp, angle, cis, log10) and the value of pi are abstracted into a
`DspPrims` record of arbitrary rational-valued functions, while every piece of
control flow, list structure and arithmetic combination is translated from the
Python source.  All properties proved below hold for every instantiation of
the primitives, hence in particular for the real ones.
-/

set_option linter.unusedVariables false

/-- A complex sample (numpy complex64), modelled with exact rational parts. -/
structure Cplx where
  re : ℚ
  im : ℚ
deriving DecidableEq, Repr

namespace Cplx

def add (a b : Cplx) : Cplx := ⟨a.re + b.re, a.im + b.im⟩

def mul (a b : Cplx) : Cplx :=
  ⟨a.re * b.re - a.im * b.im, a.re * b.im + a.im * b.re⟩

def zero : Cplx := ⟨0, 0⟩

end Cplx

/-- Abstract transcendental primitives used by the DSP code: the numerical
kernels numpy provides (`np.sqrt`, `np.abs` on complex, `np.angle`, `np.exp`,
`exp(1j*θ)`, `np.log10`) together with the value of `np.pi`.  Theorems
quantify over all instantiations. -/
structure DspPrims where
  pi : ℚ
  sqrt : ℚ → ℚ
  cabs : Cplx → ℚ
  angle : Cplx → ℚ
  exp : ℚ → ℚ
  cis : ℚ → Cplx
  log10 : ℚ → ℚ

/-- Arithmetic mean of a list (`np.mean`); mean of the empty list is 0
(division by zero yields 0 over ℚ, and the empty case is never reached on
meaningful paths). -/
def listMean (xs : List ℚ) : ℚ := xs.sum / xs.length

/-- `np.max` over a list; 0 on empty (numpy raises there, the code only
applies it to non-empty arrays). -/
def listMax : List ℚ → ℚ
  | [] => 0
  | x :: xs => xs.foldl max x

/-- Python float modulo (`%` / `np.mod`): `a - m * ⌊a / m⌋`. -/
def qmod (a m : ℚ) : ℚ := a - m * ⌊a / m⌋

namespace SignalProcessing

/-- `compute_power` (src/SDR/signal_processing.py:12): RMS magnitude,
`sqrt(mean(|x|**2))`, 0 on the empty block. -/
def compute_power (P : DspPrims) (samples : List Cplx) : ℚ :=
  if samples.length = 0 then 0
  else P.sqrt (((samples.map (fun z => (P.cabs z) ^ 2)).sum) / samples.length)

/-- Length of `np.arange(x)`-indexed resampler output:
`int(np.ceil(audio.size * ratio))` with `ratio = target_rate / src_rate`. -/
def resampleLen (n : ℕ) (src_rate target_rate : ℚ) : ℕ :=
  Int.toNat ⌈(n : ℚ) * (target_rate / src_rate)⌉

/-- `np.interp` at a single query point against `xp = 0,1,…,n-1`, `fp = audio`:
clamped piecewise-linear interpolation. -/
def interpAt (audio : List ℚ) (x : ℚ) : ℚ :=
  if audio.length = 0 then 0
  else
    let i : ℤ := ⌊x⌋
    if i ≤ 0 then
      if x ≤ 0 then audio.headI
      else audio.headI + x * (audio.getD 1 (audio.headI) - audio.headI)
    else if (audio.length : ℤ) - 1 ≤ i then audio.getD (audio.length - 1) 0
    else
      let i' := i.toNat
      let y0 := audio.getD i' 0
      let y1 := audio.getD (i' + 1) 0
      y0 + (x - (i' : ℚ)) * (y1 - y0)

/-- `_resample` (src/SDR/signal_processing.py:19): identity when the rates
match or the input is empty, otherwise linear interpolation of the input at
`np.linspace(0, size, new_length, endpoint=False)`, i.e. at the points
`k * size / new_length`. -/
def resample (audio : List ℚ) (src_rate target_rate : ℚ) : List ℚ :=
  if src_rate = target_rate ∨ audio.length = 0 then audio
  else
    let newLength := resampleLen audio.length src_rate target_rate
    (List.range newLength).map
      (fun k : ℕ => interpAt audio ((k : ℚ) * audio.length / newLength))

/-- `_single_pole_iir` (src/SDR/signal_processing.py:31):
`acc' = α·acc + (1-α)·s` scanned over the signal, `acc` starting at 0. -/
def singlePoleIIR (alpha : ℚ) : ℚ → List ℚ → List ℚ
  | _, [] => []
  | acc, s :: rest =>
      let a := alpha * acc + (1 - alpha) * s
      a :: singlePoleIIR alpha a rest

/-- `_deemphasis` (src/SDR/signal_processing.py:42): RC de-emphasis with
`α = exp(-dt/τ)`, `τ = 75 µs`. -/
def deemphasis (P : DspPrims) (audio : List ℚ) (sample_rate : ℚ) : List ℚ :=
  if audio.length = 0 then audio
  else
    let dt := 1 / sample_rate
    let tau : ℚ := 75 / 1000000
    let alpha := P.exp (-(dt / tau))
    singlePoleIIR alpha 0 audio

/-- `_simple_agc` (src/SDR/signal_processing.py:51): scale the block to
`target_rms = 0.1` with `ε = 1e-6`. -/
def simpleAGC (P : DspPrims) (audio : List ℚ) : List ℚ :=
  if audio.length = 0 then audio
  else
    let target_rms : ℚ := 1 / 10
    let eps : ℚ := 1 / 1000000
    let rms := P.sqrt ((audio.map (fun a => a ^ 2)).sum / audio.length) + eps
    audio.map (fun a => a * (target_rms / rms))

/-- One step of `np.unwrap`'s phase correction for the difference `d` between
consecutive phases (period `2π`, discontinuity threshold `π`). -/
def unwrapCorrection (pi d : ℚ) : ℚ :=
  let ddmod0 := qmod (d + pi) (2 * pi) - pi
  let ddmod := if ddmod0 = -pi ∧ 0 < d then pi else ddmod0
  if |d| < pi then 0 else ddmod - d

/-- Tail of `np.unwrap`: carries the previous raw phase and the accumulated
correction (`cumsum(ph_correct)`). -/
def unwrapGo (pi : ℚ) : ℚ → ℚ → List ℚ → List ℚ
  | _, _, [] => []
  | prev, shift, x :: rest =>
      let shift' := shift + unwrapCorrection pi (x - prev)
      (x + shift') :: unwrapGo pi x shift' rest

/-- `np.unwrap` over a phase list. -/
def unwrap (pi : ℚ) : List ℚ → List ℚ
  | [] => []
  | p0 :: rest => p0 :: unwrapGo pi p0 0 rest

/-- `np.diff`. -/
def diff : List ℚ → List ℚ
  | [] => []
  | [_] => []
  | a :: b :: rest => (b - a) :: diff (b :: rest)

/-- The demodulator family (src/SDR/signal_processing.py:66-101), a tagged
variant per concrete class; the only instance attribute is `audio_rate`. -/
inductive Demodulator where
  | fm (audio_rate : ℚ)
  | am (audio_rate : ℚ)
  | passthrough (audio_rate : ℚ)
deriving DecidableEq, Repr

/-- `FMDemodulator.demod` (src/SDR/signal_processing.py:67): unwrap the phase,
differentiate to instantaneous frequency, remove the block mean, de-emphasize,
resample to `audio_rate`, AGC. -/
def fmDemod (P : DspPrims) (audio_rate : ℚ) (samples : List Cplx)
    (sample_rate : ℚ) : List ℚ :=
  if samples.length = 0 then []
  else
    let phase := unwrap P.pi (samples.map P.angle)
    let instFreq := (diff phase).map (fun d => d * sample_rate / (2 * P.pi))
    let centered := instFreq.map (fun x => x - listMean instFreq)
    let deemph := deemphasis P centered sample_rate
    let audio := resample deemph sample_rate audio_rate
    simpleAGC P audio

/-- `AMDemodulator.demod` (src/SDR/signal_processing.py:79): envelope, mean
removal, resample, AGC. -/
def amDemod (P : DspPrims) (audio_rate : ℚ) (samples : List Cplx)
    (sample_rate : ℚ) : List ℚ :=
  if samples.length = 0 then []
  else
    let envelope := samples.map P.cabs
    let centered := envelope.map (fun x => x - listMean envelope)
    let audio := resample centered sample_rate audio_rate
    simpleAGC P audio

/-- `PassthroughDemodulator.demod` (src/SDR/signal_processing.py:89):
resample the real part. -/
def ptDemod (P : DspPrims) (audio_rate : ℚ) (samples : List Cplx)
    (sample_rate : ℚ) : List ℚ :=
  resample (samples.map Cplx.re) sample_rate audio_rate

/-- Virtual dispatch of `demod(samples, sample_rate)`. -/
def Demodulator.demod (d : Demodulator) (P : DspPrims) (samples : List Cplx)
    (sample_rate : ℚ) : List ℚ :=
  match d with
  | .fm r => fmDemod P r samples sample_rate
  | .am r => amDemod P r samples sample_rate
  | .passthrough r => ptDemod P r samples sample_rate

/-- A `demod` method call on an object: the Python bodies never assign to
`self`, so the post-call object state equals the pre-call state. -/
def Demodulator.demodStep (d : Demodulator) (P : DspPrims) (samples : List Cplx)
    (sample_rate : ℚ) : List ℚ × Demodulator :=
  (d.demod P samples sample_rate, d)

/-- `DemodulatorFactory.get` (src/SDR/signal_processing.py:95). -/
def DemodulatorFactory.get (mode : String) (audio_rate : ℚ) : Demodulator :=
  let m := (if mode = "" then "FM" else mode).toUpper
  if m = "FM" then .fm audio_rate
  else if m = "AM" then .am audio_rate
  else .passthrough audio_rate

end SignalProcessing

namespace SignalProcessing

lemma singlePoleIIR_length (alpha acc : ℚ) (l : List ℚ) :
    (singlePoleIIR alpha acc l).length = l.length := by
  induction l generalizing acc with
  | nil => rfl
  | cons s rest ih => simp [singlePoleIIR, ih]

lemma unwrapGo_length (pi prev shift : ℚ) (l : List ℚ) :
    (unwrapGo pi prev shift l).length = l.length := by
  induction l generalizing prev shift with
  | nil => rfl
  | cons x rest ih => simp [unwrapGo, ih]

lemma unwrap_length (pi : ℚ) (l : List ℚ) : (unwrap pi l).length = l.length := by
  cases l with
  | nil => rfl
  | cons p0 rest => simp [unwrap, unwrapGo_length]

lemma diff_length (l : List ℚ) : (diff l).length = l.length - 1 := by
  induction l with
  | nil => rfl
  | cons a rest ih =>
    cases rest with
    | nil => rfl
    | cons b rest' =>
      simp only [diff, List.length_cons] at ih ⊢
      omega

lemma resample_length (audio : List ℚ) (src tgt : ℚ) (h : src ≠ 0) :
    (resample audio src tgt).length = resampleLen audio.length src tgt := by
  unfold resample
  by_cases he : src = tgt ∨ audio.length = 0
  · rw [if_pos he]
    rcases he with h1 | h2
    · unfold resampleLen
      rw [← h1, div_self h]
      simp
    · simp [h2, resampleLen]
  · rw [if_neg he]
    rw [List.length_map, List.length_range]

lemma deemphasis_length (P : DspPrims) (audio : List ℚ) (sample_rate : ℚ) :
    (deemphasis P audio sample_rate).length = audio.length := by
  unfold deemphasis
  by_cases h : audio.length = 0
  · simp [h]
  · rw [if_neg h]
    exact singlePoleIIR_length _ _ _

lemma simpleAGC_length (P : DspPrims) (audio : List ℚ) :
    (simpleAGC P audio).length = audio.length := by
  unfold simpleAGC
  by_cases h : audio.length = 0
  · simp [h]
  · rw [if_neg h]
    simp

end SignalProcessing

open SignalProcessing in
/-- C6. For every non-empty complex block of length `N`, every nonzero source
rate `Fs` and every audio rate, `FMDemodulator.demod` returns audio of length
`⌈(N-1)·audio_rate/Fs⌉` (the `diff` loses one sample before resampling) and
`AMDemodulator.demod` returns audio of length `⌈N·audio_rate/Fs⌉`. -/
theorem c6_demod_output_length (P : DspPrims) (r Fs : ℚ) (samples : List Cplx)
    (hne : samples ≠ []) (hFs : Fs ≠ 0) :
    ((Demodulator.fm r).demod P samples Fs).length
        = Int.toNat ⌈((samples.length : ℚ) - 1) * r / Fs⌉ ∧
    ((Demodulator.am r).demod P samples Fs).length
        = Int.toNat ⌈(samples.length : ℚ) * r / Fs⌉ := by
  have hlen : samples.length ≠ 0 := by simpa using hne
  constructor
  · show (fmDemod P r samples Fs).length = _
    unfold fmDemod
    rw [if_neg hlen, simpleAGC_length, resample_length _ _ _ hFs,
      deemphasis_length]
    simp only [List.length_map, diff_length, unwrap_length, resampleLen]
    rw [Nat.cast_sub (by omega : 1 ≤ samples.length), mul_div_assoc]
    norm_num
  · show (amDemod P r samples Fs).length = _
    unfold amDemod
    rw [if_neg hlen, simpleAGC_length, resample_length _ _ _ hFs]
    simp only [List.length_map, resampleLen]
    rw [mul_div_assoc]

/-- A concrete, fully computable instantiation of the abstract numerical
kernels, used to evaluate the embedding on explicit inputs. -/
def prims0 : DspPrims where
  pi := 355 / 113
  sqrt := fun q => q
  cabs := fun z => z.re ^ 2 + z.im ^ 2
  angle := fun z => z.im
  exp := fun q => q
  cis := fun theta => ⟨1, theta⟩
  log10 := fun q => q

/-- Witness for C6 at a concrete three-sample block, `Fs = 4`, audio rate 2. -/
theorem c6_demod_output_length_witness :
    ([⟨1, 0⟩, ⟨0, 1⟩, ⟨1, 1⟩] : List Cplx) ≠ [] ∧ (4 : ℚ) ≠ 0 ∧
    (((SignalProcessing.Demodulator.fm 2).demod prims0
          [⟨1, 0⟩, ⟨0, 1⟩, ⟨1, 1⟩] 4).length
        = Int.toNat ⌈((([⟨1, 0⟩, ⟨0, 1⟩, ⟨1, 1⟩] : List Cplx).length : ℚ) - 1)
            * 2 / 4⌉ ∧
      ((SignalProcessing.Demodulator.am 2).demod prims0
          [⟨1, 0⟩, ⟨0, 1⟩, ⟨1, 1⟩] 4).length
        = Int.toNat ⌈(([⟨1, 0⟩, ⟨0, 1⟩, ⟨1, 1⟩] : List Cplx).length : ℚ)
            * 2 / 4⌉) :=
  ⟨by decide, by decide,
    c6_demod_output_length prims0 2 4 _ (by decide) (by decide)⟩

/-- A sequence of `demod` method calls on one demodulator object, threading
the object state through (src/SDR/signal_processing.py:66-90 keep no mutable
state, which this development makes explicit). -/
def runDemodCalls (P : DspPrims) (d : SignalProcessing.Demodulator)
    (calls : List (List Cplx × ℚ)) : SignalProcessing.Demodulator :=
  calls.foldl (fun s c => (s.demodStep P c.1 c.2).2) d

lemma runDemodCalls_eq_self (P : DspPrims) (d : SignalProcessing.Demodulator)
    (calls : List (List Cplx × ℚ)) : runDemodCalls P d calls = d := by
  induction calls generalizing d with
  | nil => rfl
  | cons c rest ih => exact ih d

/-- C9. Each demodulator's `demod` is a pure function of `(block, Fs)`: on any
instance (FM, AM or passthrough), after any two prior call histories, calling
`demod` with equal block and sample rate returns equal audio, and the call
leaves the demodulator state unchanged. -/
theorem c9_demod_pure (P : DspPrims) (d : SignalProcessing.Demodulator)
    (calls₁ calls₂ : List (List Cplx × ℚ)) (block : List Cplx) (Fs : ℚ) :
    (runDemodCalls P d calls₁).demodStep P block Fs
      = (runDemodCalls P d calls₂).demodStep P block Fs ∧
    ((runDemodCalls P d calls₁).demodStep P block Fs).2 = d := by
  rw [runDemodCalls_eq_self, runDemodCalls_eq_self]
  exact ⟨rfl, rfl⟩

/-- Sum of a list of complex samples. -/
def csum (l : List Cplx) : Cplx := l.foldl Cplx.add Cplx.zero

/-- `np.fft.fft(x, n)`: the input is zero-padded or truncated to `n` entries
and the `n`-point DFT is taken, the twiddle factors coming from the abstract
`cis` primitive. -/
def npFFT (P : DspPrims) (n : ℕ) (x : List Cplx) : List Cplx :=
  (List.range n).map (fun k : ℕ =>
    csum ((List.range n).map (fun j : ℕ =>
      Cplx.mul (x.getD j Cplx.zero) (P.cis (-(2 * P.pi * k * j / n))))))

/-- `np.fft.fftshift`: roll by `n // 2`, i.e. move the last `n - n/2` entries
to the front. -/
def fftshift (x : List Cplx) : List Cplx :=
  let s := x.length - x.length / 2
  x.drop s ++ x.take s

/-- `np.linspace(a, b, n)` (endpoint included): `a + k·(b-a)/(n-1)`. -/
def linspace (a b : ℚ) (n : ℕ) : List ℚ :=
  (List.range n).map (fun k : ℕ => a + k * (b - a) / ((n : ℚ) - 1))

namespace Scanner

/-- `np.arange(start, stop, step)` over exact rationals: element `k` is
`start + k·step` for `0 ≤ k < ⌈(stop - start)/step⌉`. -/
def arange (start stop step : ℚ) : List ℚ :=
  (List.range (Int.toNat ⌈(stop - start) / step⌉)).map
    (fun k : ℕ => start + k * step)

/-- The constructor state of `ScannerThread` relevant to the frequency plan
(src/core/scanner.py:55-64). -/
structure ScannerConfig where
  start_freq : ℚ
  stop_freq : ℚ
  step_freq : ℚ
  scan_mode : Bool
deriving DecidableEq, Repr

/-- `ScannerThread._build_frequency_list` (src/core/scanner.py:94-99):
`np.arange(start, stop + step*0.5, step)` when scanning with a positive step,
otherwise the single-element plan `[start]`. -/
def buildFrequencyList (s : ScannerConfig) : List ℚ :=
  if s.scan_mode then
    if s.step_freq ≤ 0 then [s.start_freq]
    else arange s.start_freq (s.stop_freq + s.step_freq * (1 / 2)) s.step_freq
  else [s.start_freq]

/-- `BLOCK_SIZE` (src/core/scanner.py:85). -/
def block_size : ℕ := 4096

/-- The spectrum magnitudes of src/core/scanner.py:186:
`20·log10(|fftshift(fft(samples, 512))| + 1e-6)`. -/
def spectrumVals (P : DspPrims) (samples : List Cplx) : List ℚ :=
  (fftshift (npFFT P 512 samples)).map
    (fun z => 20 * P.log10 (P.cabs z + 1 / 1000000))

/-- src/core/scanner.py:187: normalize so the maximum is 0 dB. -/
def spectrumValsNorm (P : DspPrims) (samples : List Cplx) : List ℚ :=
  (spectrumVals P samples).map
    (fun v => v - listMax (spectrumVals P samples))

/-- The frequency axis of src/core/scanner.py:188:
`np.linspace(-0.5, 0.5, len(fft_vals)) * sample_rate + freq` (in Hz; the
emitted pair divides it by 1e6). -/
def spectrumFreqAxis (P : DspPrims) (samples : List Cplx)
    (sample_rate freq : ℚ) : List ℚ :=
  (linspace (-(1 / 2)) (1 / 2) (spectrumValsNorm P samples).length).map
    (fun v => v * sample_rate + freq)

end Scanner

namespace Scanner

lemma ceilQ_eq (q : ℚ) (z : ℤ) (h1 : (z : ℚ) - 1 < q) (h2 : q ≤ (z : ℚ)) :
    (⌈q⌉ : ℤ) = z := by
  rw [Int.ceil_eq_iff]
  exact ⟨h1, h2⟩

lemma arange_count (start stop step : ℚ) (m : ℕ) (hstep : 0 < step)
    (h : stop - start = m * step + step / 2) :
    arange start stop step
      = (List.range (m + 1)).map (fun k : ℕ => start + k * step) := by
  unfold arange
  congr 2
  have hdiv : (stop - start) / step = (m : ℚ) + 1 / 2 := by
    rw [h]
    field_simp
    ring
  rw [hdiv]
  rw [ceilQ_eq ((m : ℚ) + 1 / 2) ((m : ℤ) + 1)
    (by push_cast; linarith) (by push_cast; linarith)]
  omega

/-- C5 (amended). The scanner's frequency plan: when `scan_mode` is false or
`step ≤ 0` it is exactly `[start]`; when `scan_mode` is true and `step > 0`
it is `np.arange(start, stop + step/2, step)`, and in the case the spec
describes — `stop` on the step grid, `stop = start + m·step` — this is the
inclusive progression `start, start+step, …, stop` ending at `stop`.  (As
stated the claim fails off the grid: see the counterexample.) -/
theorem c5_frequency_plan (start stop step : ℚ) (m : ℕ) (hstep : 0 < step)
    (hgrid : stop = start + m * step) :
    buildFrequencyList ⟨start, stop, step, true⟩
      = (List.range (m + 1)).map (fun k : ℕ => start + k * step) ∧
    (buildFrequencyList ⟨start, stop, step, true⟩).getLast? = some stop ∧
    (∀ step₀ : ℚ, step₀ ≤ 0 →
      buildFrequencyList ⟨start, stop, step₀, true⟩ = [start]) ∧
    (∀ stop₀ step₀ : ℚ,
      buildFrequencyList ⟨start, stop₀, step₀, false⟩ = [start]) := by
  have hlist : buildFrequencyList ⟨start, stop, step, true⟩
      = (List.range (m + 1)).map (fun k : ℕ => start + k * step) := by
    have h0 : buildFrequencyList ⟨start, stop, step, true⟩
        = if step ≤ 0 then [start]
          else arange start (stop + step * (1 / 2)) step := rfl
    rw [h0, if_neg (not_le.mpr hstep)]
    exact arange_count start (stop + step * (1 / 2)) step m hstep
      (by rw [hgrid]; ring)
  refine ⟨hlist, ?_, ?_, ?_⟩
  · rw [hlist, List.range_succ, List.map_append]
    simp only [List.map_cons, List.map_nil]
    rw [List.getLast?_concat]
    rw [hgrid]
  · intro step₀ hle
    have h0 : buildFrequencyList ⟨start, stop, step₀, true⟩
        = if step₀ ≤ 0 then [start]
          else arange start (stop + step₀ * (1 / 2)) step₀ := rfl
    rw [h0, if_pos hle]
  · intro stop₀ step₀
    rfl

/-- Witness for C5: plan `(0, 10, 2)` in scan mode enumerates
`0, 2, 4, 6, 8, 10` and ends at the stop frequency. -/
theorem c5_frequency_plan_witness :
    (0 : ℚ) < 2 ∧ (10 : ℚ) = 0 + (5 : ℕ) * 2 ∧
    (buildFrequencyList ⟨0, 10, 2, true⟩
        = (List.range (5 + 1)).map (fun k : ℕ => (0 : ℚ) + (k : ℚ) * 2) ∧
      (buildFrequencyList ⟨0, 10, 2, true⟩).getLast? = some 10 ∧
      (∀ step₀ : ℚ, step₀ ≤ 0 →
        buildFrequencyList ⟨0, 10, step₀, true⟩ = [0]) ∧
      (∀ stop₀ step₀ : ℚ,
        buildFrequencyList ⟨0, stop₀, step₀, false⟩ = [0])) :=
  ⟨by norm_num, by norm_num,
    c5_frequency_plan 0 10 2 5 (by norm_num) (by norm_num)⟩

/-- Counterexample for C5 as stated: with plan `(0, 10, 3)` in scan mode the
frequency list is `[0, 3, 6, 9]` — the stop frequency 10 is not its last
element, because 10 does not lie on the step grid. -/
theorem c5_frequency_plan_counterexample :
    (0 : ℚ) < 3 ∧
    (buildFrequencyList ⟨0, 10, 3, true⟩).getLast? ≠ some (10 : ℚ) := by
  have hceil : (⌈((10 : ℚ) + 3 * (1 / 2) - 0) / 3⌉ : ℤ) = 4 :=
    ceilQ_eq _ 4 (by norm_num) (by norm_num)
  have h0 : buildFrequencyList ⟨0, 10, 3, true⟩
      = if (3 : ℚ) ≤ 0 then [(0 : ℚ)]
        else arange 0 (10 + 3 * (1 / 2)) 3 := rfl
  refine ⟨by norm_num, ?_⟩
  rw [h0, if_neg (by norm_num)]
  unfold arange
  rw [hceil]
  rw [show Int.toNat 4 = 4 from rfl]
  rw [List.range_succ, List.map_append]
  simp only [List.map_cons, List.map_nil, List.getLast?_concat,
    Option.some.injEq]
  norm_num

end Scanner

lemma foldl_max_map_sub (c : ℚ) (xs : List ℚ) :
    ∀ a : ℚ, (xs.map (fun v => v - c)).foldl max (a - c)
      = xs.foldl max a - c := by
  induction xs with
  | nil => intro a; rfl
  | cons x xs ih =>
      intro a
      simp only [List.map_cons, List.foldl_cons]
      rw [show (a - c) ⊔ (x - c) = a ⊔ x - c from max_sub_sub_right a x c, ih]

lemma listMax_map_sub_self (l : List ℚ) (h : l ≠ []) :
    listMax (l.map (fun v => v - listMax l)) = 0 := by
  cases l with
  | nil => exact absurd rfl h
  | cons x xs =>
      simp only [List.map_cons, listMax]
      rw [foldl_max_map_sub]
      simp

namespace Scanner

lemma npFFT_length (P : DspPrims) (n : ℕ) (x : List Cplx) :
    (npFFT P n x).length = n := by
  simp [npFFT]

lemma fftshift_length (x : List Cplx) : (fftshift x).length = x.length := by
  simp only [fftshift, List.length_append, List.length_drop, List.length_take]
  omega

lemma spectrumVals_length (P : DspPrims) (samples : List Cplx) :
    (spectrumVals P samples).length = 512 := by
  simp [spectrumVals, fftshift_length, npFFT_length]

lemma spectrumValsNorm_length (P : DspPrims) (samples : List Cplx) :
    (spectrumValsNorm P samples).length = 512 := by
  simp [spectrumValsNorm, spectrumVals_length]

lemma spectrumValsNorm_max (P : DspPrims) (samples : List Cplx) :
    listMax (spectrumValsNorm P samples) = 0 := by
  unfold spectrumValsNorm
  apply listMax_map_sub_self
  intro h
  have hl := spectrumVals_length P samples
  rw [h] at hl
  simp at hl

lemma spectrumFreqAxis_eq (P : DspPrims) (samples : List Cplx)
    (Fs freq : ℚ) :
    spectrumFreqAxis P samples Fs freq
      = (List.range 512).map
          (fun k : ℕ => (-(1 / 2) + (k : ℚ) * 1 / 511) * Fs + freq) := by
  unfold spectrumFreqAxis linspace
  rw [spectrumValsNorm_length, List.map_map]
  congr 1
  funext k
  simp only [Function.comp]
  norm_num

lemma spectrumFreqAxis_mem_top (P : DspPrims) (samples : List Cplx)
    (Fs freq : ℚ) :
    freq + Fs / 2 ∈ spectrumFreqAxis P samples Fs freq := by
  rw [spectrumFreqAxis_eq]
  refine List.mem_map.mpr ⟨511, ?_, ?_⟩
  · simp
  · push_cast
    ring_nf

lemma spectrumFreqAxis_mem_bot (P : DspPrims) (samples : List Cplx)
    (Fs freq : ℚ) :
    freq - Fs / 2 ∈ spectrumFreqAxis P samples Fs freq := by
  rw [spectrumFreqAxis_eq]
  refine List.mem_map.mpr ⟨0, ?_, ?_⟩
  · simp
  · push_cast
    ring_nf

lemma spectrumFreqAxis_bounds (P : DspPrims) (samples : List Cplx)
    (Fs freq : ℚ) (hFs : 0 ≤ Fs) :
    ∀ x ∈ spectrumFreqAxis P samples Fs freq,
      freq - Fs / 2 ≤ x ∧ x ≤ freq + Fs / 2 := by
  rw [spectrumFreqAxis_eq]
  intro x hx
  obtain ⟨k, hk, rfl⟩ := List.mem_map.mp hx
  rw [List.mem_range] at hk
  have hk1 : (k : ℚ) ≤ 511 := by exact_mod_cast Nat.le_of_lt_succ hk
  have hk0 : (0 : ℚ) ≤ (k : ℚ) := by positivity
  constructor
  · nlinarith [mul_nonneg hk0 hFs, mul_le_mul_of_nonneg_right hk1 hFs]
  · nlinarith [mul_nonneg hk0 hFs, mul_le_mul_of_nonneg_right hk1 hFs]

/-- C8 (amended). Every spectrum emission of the scanner run loop carries a
512-point frequency axis spanning the closed interval `[-Fs/2, Fs/2] + freq`:
its smallest point is `freq - Fs/2`, its largest point is exactly
`freq + Fs/2` (the `np.linspace` endpoint is included, so the axis is not the
half-open `[-Fs/2, Fs/2)`), and the power values are normalized so their
maximum is 0 dB. -/
theorem c8_spectrum_axis (P : DspPrims) (samples : List Cplx)
    (Fs freq : ℚ) (hFs : 0 ≤ Fs) :
    (spectrumFreqAxis P samples Fs freq).length = 512 ∧
    freq - Fs / 2 ∈ spectrumFreqAxis P samples Fs freq ∧
    freq + Fs / 2 ∈ spectrumFreqAxis P samples Fs freq ∧
    (∀ x ∈ spectrumFreqAxis P samples Fs freq,
      freq - Fs / 2 ≤ x ∧ x ≤ freq + Fs / 2) ∧
    listMax (spectrumValsNorm P samples) = 0 := by
  refine ⟨?_, spectrumFreqAxis_mem_bot P samples Fs freq,
    spectrumFreqAxis_mem_top P samples Fs freq,
    spectrumFreqAxis_bounds P samples Fs freq hFs,
    spectrumValsNorm_max P samples⟩
  rw [spectrumFreqAxis_eq]
  simp

end Scanner

/-- Witness for C8 at `Fs = 2`, `freq = 0`, the empty sample block and the
concrete primitives. -/
theorem c8_spectrum_axis_witness :
    (0 : ℚ) ≤ 2 ∧
    ((Scanner.spectrumFreqAxis prims0 [] 2 0).length = 512 ∧
      (0 : ℚ) - 2 / 2 ∈ Scanner.spectrumFreqAxis prims0 [] 2 0 ∧
      (0 : ℚ) + 2 / 2 ∈ Scanner.spectrumFreqAxis prims0 [] 2 0 ∧
      (∀ x ∈ Scanner.spectrumFreqAxis prims0 [] 2 0,
        (0 : ℚ) - 2 / 2 ≤ x ∧ x ≤ (0 : ℚ) + 2 / 2) ∧
      listMax (Scanner.spectrumValsNorm prims0 []) = 0) :=
  ⟨by norm_num, Scanner.c8_spectrum_axis prims0 [] 2 0 (by norm_num)⟩

/-- Counterexample for C8 as stated: with `Fs = 2`, `freq = 0` the axis
contains the point `freq + Fs/2` itself, so not every point is strictly below
`freq + Fs/2`. -/
theorem c8_spectrum_axis_counterexample :
    ¬ ∀ x ∈ Scanner.spectrumFreqAxis prims0 [] 2 0, x < 0 + 2 / 2 := by
  intro hall
  have hmem := Scanner.spectrumFreqAxis_mem_top prims0 [] 2 0
  have hlt := hall _ hmem
  norm_num at hlt

namespace MultiDemod

open SignalProcessing

/-- `ChannelConfig` (src/core/multi_demod.py:17-23). -/
structure ChannelConfig where
  freq_hz : ℚ
  mode : String
  squelch_linear : ℚ
  enabled : Bool
  name : String
deriving DecidableEq, Repr

/-- `ChannelState` (src/core/multi_demod.py:26-32): config, demodulator
instance and the last observed audio/power. -/
structure ChannelState where
  config : ChannelConfig
  demod : Demodulator
  audio_rms : ℚ
  last_audio : Option (List ℚ)
  last_power_db : ℚ
deriving DecidableEq, Repr

/-- One result dict of `MultiChannelDemod.process`
(src/core/multi_demod.py:89-97). -/
structure ResultEntry where
  freq_hz : ℚ
  mode : String
  audio : List ℚ
  audio_rms : ℚ
  power_db : ℚ
deriving DecidableEq, Repr

/-- Mixing one channel to baseband (src/core/multi_demod.py:70-77):
`bb[n] = samples[n] · exp(-i·2π·(f_ch - center)·(n/Fs))`, the time index `n`
restarting at 0 each block. -/
def channelBaseband (P : DspPrims) (sample_rate center_freq : ℚ)
    (samples : List Cplx) (ch_freq : ℚ) : List Cplx :=
  let offset := ch_freq - center_freq
  List.zipWith Cplx.mul samples
    ((List.range samples.length).map
      (fun n : ℕ => P.cis (-(2 * P.pi * offset * ((n : ℚ) / sample_rate)))))

/-- `float(np.sqrt(np.mean(audio ** 2)))` (src/core/multi_demod.py:88). -/
def audioRMS (P : DspPrims) (audio : List ℚ) : ℚ :=
  P.sqrt ((audio.map (fun a => a ^ 2)).sum / audio.length)

/-- The body of the per-channel loop of `MultiChannelDemod.process`
(src/core/multi_demod.py:71-97): returns the mutated channel state and the
optional appended result. -/
def processChannel (P : DspPrims) (sample_rate center_freq : ℚ)
    (samples : List Cplx) (ch : ChannelState) :
    ChannelState × Option ResultEntry :=
  if ch.config.enabled = false then (ch, none)
  else
    let bb := channelBaseband P sample_rate center_freq samples ch.config.freq_hz
    let power_lin := compute_power P bb
    let power_db := 20 * P.log10 (power_lin + 1 / 1000000)
    let ch1 := { ch with last_power_db := power_db }
    if power_lin < ch.config.squelch_linear then
      ({ ch1 with last_audio := none, audio_rms := 0 }, none)
    else
      let audio := ch.demod.demod P bb sample_rate
      if audio.length = 0 then (ch1, none)
      else
        let rms := audioRMS P audio
        ({ ch1 with last_audio := some audio, audio_rms := rms },
          some ⟨ch.config.freq_hz, ch.config.mode, audio, rms, power_db⟩)

/-- The channel loop of `MultiChannelDemod.process`, collecting results in
order and threading each channel's mutated state. -/
def processChannels (P : DspPrims) (sample_rate center_freq : ℚ)
    (samples : List Cplx) :
    List ChannelState → List ResultEntry × List ChannelState
  | [] => ([], [])
  | ch :: rest =>
      let step := processChannel P sample_rate center_freq samples ch
      let rem := processChannels P sample_rate center_freq samples rest
      (match step.2 with
       | some e => e :: rem.1
       | none => rem.1,
       step.1 :: rem.2)

/-- `MultiChannelDemod` (src/core/multi_demod.py:35-43). -/
structure MultiChannelDemod where
  sample_rate : ℚ
  channels : List ChannelState
deriving DecidableEq, Repr

/-- `MultiChannelDemod.process` (src/core/multi_demod.py:65-98): empty input
or no channels returns no results and leaves the states alone; otherwise the
per-channel loop runs. -/
def MultiChannelDemod.process (m : MultiChannelDemod) (P : DspPrims)
    (center_freq : ℚ) (samples : List Cplx) :
    List ResultEntry × MultiChannelDemod :=
  if samples.length = 0 ∨ m.channels = [] then ([], m)
  else
    let r := processChannels P m.sample_rate center_freq samples m.channels
    (r.1, { m with channels := r.2 })

/-- The entry the claim predicts for one channel: present exactly when the
channel is enabled, its mixed-to-baseband power passes the squelch, and the
demodulated audio is non-empty. -/
def expectedEntry (P : DspPrims) (sample_rate center_freq : ℚ)
    (samples : List Cplx) (ch : ChannelState) : Option ResultEntry :=
  let bb := channelBaseband P sample_rate center_freq samples ch.config.freq_hz
  let power_lin := compute_power P bb
  let audio := ch.demod.demod P bb sample_rate
  if ch.config.enabled ∧ ¬ power_lin < ch.config.squelch_linear ∧ audio ≠ []
  then some ⟨ch.config.freq_hz, ch.config.mode, audio, audioRMS P audio,
      20 * P.log10 (power_lin + 1 / 1000000)⟩
  else none

lemma processChannel_snd (P : DspPrims) (sr cf : ℚ) (samples : List Cplx)
    (ch : ChannelState) :
    (processChannel P sr cf samples ch).2 = expectedEntry P sr cf samples ch := by
  by_cases hen : ch.config.enabled = false
  · simp [processChannel, expectedEntry, hen]
  · have hen' : ch.config.enabled = true := by
      revert hen
      cases ch.config.enabled <;> simp
    by_cases hpw : compute_power P
        (channelBaseband P sr cf samples ch.config.freq_hz)
          < ch.config.squelch_linear
    · simp [processChannel, expectedEntry, hen', hpw]
    · by_cases hau : ch.demod.demod P
          (channelBaseband P sr cf samples ch.config.freq_hz) sr = []
      · simp [processChannel, expectedEntry, hen', hpw, hau]
      · simp [processChannel, expectedEntry, hen', hpw, hau,
          List.length_eq_zero]

lemma processChannels_eq (P : DspPrims) (sr cf : ℚ) (samples : List Cplx)
    (l : List ChannelState) :
    processChannels P sr cf samples l
      = (l.filterMap (expectedEntry P sr cf samples),
         l.map (fun ch => (processChannel P sr cf samples ch).1)) := by
  induction l with
  | nil => rfl
  | cons ch rest ih =>
      simp only [processChannels, ih, List.filterMap_cons, List.map_cons]
      rw [processChannel_snd]
      cases expectedEntry P sr cf samples ch <;> rfl

lemma processChannel_squelched (P : DspPrims) (sr cf : ℚ)
    (samples : List Cplx) (ch : ChannelState)
    (hen : ch.config.enabled = true)
    (hpw : compute_power P
        (channelBaseband P sr cf samples ch.config.freq_hz)
          < ch.config.squelch_linear) :
    (processChannel P sr cf samples ch).1.last_audio = none ∧
    (processChannel P sr cf samples ch).1.audio_rms = 0 := by
  simp [processChannel, hen, hpw]

end MultiDemod

open MultiDemod in
/-- C7. For every non-empty sample block, `MultiChannelDemod.process` returns
exactly one entry `(freq_hz, mode, audio, audio_rms, power_db)` per enabled
channel whose mixed-to-baseband power passes its squelch and whose
demodulated audio is non-empty (in channel order); the new channel states are
the per-channel updates, and an enabled channel whose baseband power is below
its squelch has its last audio cleared and its audio RMS set to 0. -/
theorem c7_multi_process (P : DspPrims) (m : MultiChannelDemod)
    (center_freq : ℚ) (samples : List Cplx) (h : samples ≠ []) :
    (m.process P center_freq samples).1
      = m.channels.filterMap
          (expectedEntry P m.sample_rate center_freq samples) ∧
    ((m.process P center_freq samples).2).channels
      = m.channels.map
          (fun ch => (processChannel P m.sample_rate center_freq samples ch).1) ∧
    (∀ ch ∈ m.channels, ch.config.enabled = true →
      SignalProcessing.compute_power P
          (channelBaseband P m.sample_rate center_freq samples ch.config.freq_hz)
        < ch.config.squelch_linear →
      (processChannel P m.sample_rate center_freq samples ch).1.last_audio
          = none ∧
      (processChannel P m.sample_rate center_freq samples ch).1.audio_rms
          = 0) := by
  have hthird : ∀ ch ∈ m.channels, ch.config.enabled = true →
      SignalProcessing.compute_power P
          (channelBaseband P m.sample_rate center_freq samples ch.config.freq_hz)
        < ch.config.squelch_linear →
      (processChannel P m.sample_rate center_freq samples ch).1.last_audio
          = none ∧
      (processChannel P m.sample_rate center_freq samples ch).1.audio_rms
          = 0 := by
    intro ch _ hen hpw
    exact processChannel_squelched P m.sample_rate center_freq samples ch hen hpw
  by_cases hch : m.channels = []
  · refine ⟨?_, ?_, hthird⟩ <;>
      simp [MultiChannelDemod.process, hch]
  · have hcond : ¬ (samples.length = 0 ∨ m.channels = []) := by
      push_neg
      exact ⟨by simpa using h, hch⟩
    have hp : m.process P center_freq samples
        = (m.channels.filterMap (expectedEntry P m.sample_rate center_freq samples),
           ⟨m.sample_rate,
            m.channels.map
              (fun ch => (processChannel P m.sample_rate center_freq samples ch).1)⟩) := by
      unfold MultiChannelDemod.process
      rw [if_neg hcond, processChannels_eq]
    rw [hp]
    exact ⟨rfl, rfl, hthird⟩

/-- A concrete channel that passes its squelch under `prims0`. -/
def mchanPass : MultiDemod.ChannelState where
  config :=
    { freq_hz := 0, mode := "PT", squelch_linear := 0, enabled := true,
      name := "a" }
  demod := .passthrough 2
  audio_rms := 0
  last_audio := none
  last_power_db := -120

/-- A concrete channel whose squelch rejects the same block. -/
def mchanQuiet : MultiDemod.ChannelState where
  config :=
    { freq_hz := 0, mode := "PT", squelch_linear := 100, enabled := true,
      name := "b" }
  demod := .passthrough 2
  audio_rms := 0
  last_audio := none
  last_power_db := -120

/-- A concrete two-channel `MultiChannelDemod` at 2 Hz sample rate. -/
def mdemod0 : MultiDemod.MultiChannelDemod where
  sample_rate := 2
  channels := [mchanPass, mchanQuiet]

open MultiDemod in
/-- Witness for C7 on the two-channel fixture and a one-sample block. -/
theorem c7_multi_process_witness :
    ([⟨1, 0⟩] : List Cplx) ≠ [] ∧
    ((mdemod0.process prims0 0 [⟨1, 0⟩]).1
        = mdemod0.channels.filterMap
            (expectedEntry prims0 mdemod0.sample_rate 0 [⟨1, 0⟩]) ∧
      ((mdemod0.process prims0 0 [⟨1, 0⟩]).2).channels
        = mdemod0.channels.map
            (fun ch => (processChannel prims0 mdemod0.sample_rate 0 [⟨1, 0⟩] ch).1) ∧
      (∀ ch ∈ mdemod0.channels, ch.config.enabled = true →
        SignalProcessing.compute_power prims0
            (channelBaseband prims0 mdemod0.sample_rate 0 [⟨1, 0⟩] ch.config.freq_hz)
          < ch.config.squelch_linear →
        (processChannel prims0 mdemod0.sample_rate 0 [⟨1, 0⟩] ch).1.last_audio
            = none ∧
        (processChannel prims0 mdemod0.sample_rate 0 [⟨1, 0⟩] ch).1.audio_rms
            = 0)) :=
  ⟨by decide, c7_multi_process prims0 mdemod0 0 [⟨1, 0⟩] (by decide)⟩

/-- JSON values — the payloads `json.dump`/`json.dumps` serialize here. -/
inductive Json where
  | null
  | bool (b : Bool)
  | num (q : ℚ)
  | str (s : String)
  | arr (xs : List Json)
  | obj (fields : List (String × Json))

/-- Python dict assignment `d[k] = v` on a unique-key association list:
replace the binding in place when the key exists, else append. -/
def dictInsert : List (String × Json) → String → Json → List (String × Json)
  | [], k, v => [(k, v)]
  | p :: rest, k, v =>
      if p.1 = k then (k, v) :: rest else p :: dictInsert rest k v

/-- `dict.update`: fold the right dict's bindings into the left. -/
def dictUpdate (d m : List (String × Json)) : List (String × Json) :=
  m.foldl (fun acc p => dictInsert acc p.1 p.2) d

/-- Python dict lookup `d.get(k)`. -/
def dictGet : List (String × Json) → String → Option Json
  | [], _ => none
  | p :: rest, k => if p.1 = k then some p.2 else dictGet rest k

/-- A wall-clock reading at second resolution. -/
structure DateTimeQ where
  year : ℕ
  month : ℕ
  day : ℕ
  hour : ℕ
  minute : ℕ
  second : ℕ
deriving DecidableEq, Repr

/-- Zero-pad to two digits (strftime field formatting). -/
def pad2 (n : ℕ) : String := if n < 10 then "0" ++ toString n else toString n

/-- `strftime("%Y-%m-%d %H:%M:%S")` (src/core/logger.py:45). -/
def formatTimestamp (t : DateTimeQ) : String :=
  toString t.year ++ "-" ++ pad2 t.month ++ "-" ++ pad2 t.day ++ " "
    ++ pad2 t.hour ++ ":" ++ pad2 t.minute ++ ":" ++ pad2 t.second

/-- The two clock readings Python exposes at one instant:
`datetime.datetime.now()` (local wall time, which src/core/logger.py:45
uses) and the UTC reading of the same instant. -/
structure Clock where
  now : DateTimeQ
  utcnow : DateTimeQ

namespace EventLogger

/-- Whether an underlying file write raised. -/
inductive WriteOutcome where
  | ok
  | fail
deriving DecidableEq, Repr

/-- In-memory state of an `EventLogger` object plus the class-level,
process-wide `_global_events` list (src/core/logger.py:18-39): the
instance-local `events` list and whether each journal handle opened
successfully (`None` handles skip their write block). -/
structure LoggerState where
  events : List (List (String × Json))
  global_events : List (List (String × Json))
  csv_open : Bool
  jsonl_open : Bool

/-- The event dict built by `log_event` (src/core/logger.py:45-50):
`{"time": now-formatted, "freq": freq_hz, "text": text}` updated with the
caller metadata (`text or ""` equals `text` for a string argument). -/
def buildEvent (clock : Clock) (frequency_hz : ℚ) (text : String)
    (metadata : List (String × Json)) : List (String × Json) :=
  dictUpdate
    [("time", Json.str (formatTimestamp clock.now)),
     ("freq", Json.num frequency_hz), ("text", Json.str text)]
    metadata

/-- `EventLogger.log_event` (src/core/logger.py:41-70).  The event is
appended to the instance list and the lock-protected global list first
(lines 51-53).  The CSV block (lines 55-58) has no try/except, so when the
CSV handle is open and its write raises, the exception propagates out of
`log_event`; the JSONL write (lines 59-64) and the transcript-index add
(lines 65-69) catch their exceptions, so their outcomes affect nothing the
model tracks. -/
def logEvent (st : LoggerState) (clock : Clock) (frequency_hz : ℚ)
    (text : String) (metadata : List (String × Json))
    (csvWrite jsonlWrite indexAdd : WriteOutcome) :
    LoggerState × Except String (List (String × Json)) :=
  let event := buildEvent clock frequency_hz text metadata
  let st1 := { st with
    events := st.events ++ [event],
    global_events := st.global_events ++ [event] }
  if st.csv_open ∧ csvWrite = WriteOutcome.fail then
    (st1, Except.error "csv write failed")
  else
    (st1, Except.ok event)

/-- `EventLogger.recent_events` (src/core/logger.py:72-75): a copied slice
`list(_global_events[-n:])` (Python's `[-0:]` is the whole list). -/
def recent_events (global_events : List (List (String × Json))) (n : ℕ) :
    List (List (String × Json)) :=
  if n = 0 then global_events
  else global_events.drop (global_events.length - n)

/-- The arguments of one `log_event` call, journal outcomes included. -/
structure LogCall where
  clock : Clock
  frequency_hz : ℚ
  text : String
  metadata : List (String × Json)
  csvWrite : WriteOutcome
  jsonlWrite : WriteOutcome
  indexAdd : WriteOutcome

/-- The evolution of the shared `_global_events` under a sequence of
`log_event` calls issued from arbitrary logger instances: each call runs on
its own instance state, all of them sharing the one class-level list. -/
def runGlobal (g : List (List (String × Json))) :
    List (LoggerState × LogCall) → List (List (String × Json))
  | [] => g
  | (inst, c) :: rest =>
      let st := { inst with global_events := g }
      let out := logEvent st c.clock c.frequency_hz c.text c.metadata
        c.csvWrite c.jsonlWrite c.indexAdd
      runGlobal out.1.global_events rest

lemma runGlobal_length (g : List (List (String × Json)))
    (calls : List (LoggerState × LogCall)) :
    (runGlobal g calls).length = g.length + calls.length := by
  induction calls generalizing g with
  | nil => simp [runGlobal]
  | cons c rest ih =>
      obtain ⟨inst, call⟩ := c
      show (runGlobal _ rest).length = _
      rw [ih]
      by_cases hc : inst.csv_open ∧ call.csvWrite = WriteOutcome.fail <;>
        simp [logEvent, hc, List.length_append] <;> omega

end EventLogger

open EventLogger in
/-- C2 (amended). The process-wide `_global_events` list shared by all
`EventLogger` instances is NOT bounded at 200: each `log_event` call appends
exactly one event, so after any sequence of calls its length equals the
initial length plus the number of calls, without bound. -/
theorem c2_global_events_growth (g : List (List (String × Json)))
    (calls : List (EventLogger.LoggerState × EventLogger.LogCall)) :
    (EventLogger.runGlobal g calls).length = g.length + calls.length :=
  EventLogger.runGlobal_length g calls

/-- A trivial clock fixture: local wall time 14:00, UTC 12:00 (a UTC+2
environment). -/
def clock0 : Clock where
  now := ⟨2026, 10, 12, 14, 0, 0⟩
  utcnow := ⟨2026, 10, 12, 12, 0, 0⟩

/-- A log_event call fixture with succeeding writers. -/
def call0 : EventLogger.LogCall where
  clock := clock0
  frequency_hz := 100000000
  text := ""
  metadata := []
  csvWrite := .ok
  jsonlWrite := .ok
  indexAdd := .ok

/-- A logger instance fixture whose journal handles are open. -/
def inst0 : EventLogger.LoggerState where
  events := []
  global_events := []
  csv_open := true
  jsonl_open := true

open EventLogger in
/-- Counterexample for C2 as stated: 201 `log_event` calls starting from an
empty process-wide list leave 201 events in it — its length does exceed the
claimed bound of 200. -/
theorem c2_global_events_counterexample :
    ¬ (EventLogger.runGlobal [] (List.replicate 201 (inst0, call0))).length
        ≤ 200 := by
  rw [EventLogger.runGlobal_length, List.length_replicate]
  norm_num

open EventLogger in
/-- C3 (amended). On every `log_event` call the event is appended to the
instance-local buffer and the process-wide buffer, whatever the journal
outcomes; a JSONL append failure (or index-add failure) never affects the
result, but when the CSV handle is open and its append fails, `log_event`
raises instead of returning the event (the CSV block has no try/except). -/
theorem c3_log_event_journal_failures (st : EventLogger.LoggerState)
    (clock : Clock) (freq : ℚ) (text : String)
    (metadata : List (String × Json))
    (csvW jsonlW idxW : EventLogger.WriteOutcome) :
    (EventLogger.logEvent st clock freq text metadata csvW jsonlW idxW).1.events
        = st.events ++ [EventLogger.buildEvent clock freq text metadata] ∧
    (EventLogger.logEvent st clock freq text metadata csvW jsonlW idxW).1.global_events
        = st.global_events ++ [EventLogger.buildEvent clock freq text metadata] ∧
    (EventLogger.logEvent st clock freq text metadata csvW jsonlW idxW).2
      = (if st.csv_open ∧ csvW = EventLogger.WriteOutcome.fail
         then Except.error "csv write failed"
         else Except.ok (EventLogger.buildEvent clock freq text metadata)) := by
  by_cases hc : st.csv_open ∧ csvW = EventLogger.WriteOutcome.fail <;>
    simp [EventLogger.logEvent, hc]

open EventLogger in
/-- Counterexample for C3 as stated: with both journals open, a failing CSV
append makes `log_event` raise — the exception propagates and no event is
returned. -/
theorem c3_log_event_counterexample :
    (EventLogger.logEvent inst0 clock0 100000000 "hello" []
        EventLogger.WriteOutcome.fail EventLogger.WriteOutcome.ok
        EventLogger.WriteOutcome.ok).2
      = Except.error "csv write failed" := rfl

lemma dictGet_dictInsert_ne (d : List (String × Json)) (k1 : String) (v : Json)
    (k : String) (h : k1 ≠ k) : dictGet (dictInsert d k1 v) k = dictGet d k := by
  induction d with
  | nil => simp [dictInsert, dictGet, h]
  | cons p rest ih =>
      by_cases hp : p.1 = k1
      · simp [dictInsert, hp, dictGet, h]
      · by_cases hpk : p.1 = k
        · simp [dictInsert, hp, dictGet, hpk, Ne.symm h]
        · simp [dictInsert, hp, dictGet, hpk, ih]

lemma dictGet_dictUpdate_none (m : List (String × Json)) :
    ∀ (d : List (String × Json)) (k : String), (∀ p ∈ m, p.1 ≠ k) →
      dictGet (dictUpdate d m) k = dictGet d k := by
  induction m with
  | nil => intro d k h; rfl
  | cons p rest ih =>
      intro d k h
      have h1 : p.1 ≠ k := h p (by simp)
      have h2 : ∀ q ∈ rest, q.1 ≠ k := fun q hq => h q (by simp [hq])
      rw [show dictUpdate d (p :: rest)
            = dictUpdate (dictInsert d p.1 p.2) rest from rfl]
      rw [ih (dictInsert d p.1 p.2) k h2, dictGet_dictInsert_ne d p.1 p.2 k h1]

/-- The string stored under the `time` key of an event dict. -/
def eventTime (e : List (String × Json)) : Option String :=
  match dictGet e "time" with
  | some (Json.str s) => some s
  | _ => none

open EventLogger in
/-- C4 (amended). Every event record built by `log_event` carries a `time`
field holding the current LOCAL wall time (`datetime.datetime.now()`), not
the UTC reading, formatted `YYYY-MM-DD HH:MM:SS`, provided the caller
metadata does not override the key; the record is appended as built. -/
theorem c4_event_time_is_local (st : EventLogger.LoggerState) (clock : Clock)
    (freq : ℚ) (text : String) (metadata : List (String × Json))
    (csvW jsonlW idxW : EventLogger.WriteOutcome)
    (hmeta : ∀ p ∈ metadata, p.1 ≠ "time") :
    eventTime (EventLogger.buildEvent clock freq text metadata)
        = some (formatTimestamp clock.now) ∧
    (EventLogger.logEvent st clock freq text metadata csvW jsonlW idxW).1.events
        = st.events ++ [EventLogger.buildEvent clock freq text metadata] := by
  constructor
  · unfold EventLogger.buildEvent eventTime
    rw [dictGet_dictUpdate_none metadata _ "time" hmeta]
    rfl
  · by_cases hc : st.csv_open ∧ csvW = EventLogger.WriteOutcome.fail <;>
      simp [EventLogger.logEvent, hc]

open EventLogger in
/-- Witness for C4 (amended) at the concrete clock fixture. -/
theorem c4_event_time_is_local_witness :
    (∀ p ∈ ([] : List (String × Json)), p.1 ≠ "time") ∧
    (eventTime (EventLogger.buildEvent clock0 100000000 "" [])
        = some (formatTimestamp clock0.now) ∧
      (EventLogger.logEvent inst0 clock0 100000000 "" []
          EventLogger.WriteOutcome.ok EventLogger.WriteOutcome.ok
          EventLogger.WriteOutcome.ok).1.events
        = inst0.events ++ [EventLogger.buildEvent clock0 100000000 "" []]) :=
  ⟨by simp,
    c4_event_time_is_local inst0 clock0 100000000 "" []
      EventLogger.WriteOutcome.ok EventLogger.WriteOutcome.ok
      EventLogger.WriteOutcome.ok (by simp)⟩

/-- Counterexample for C4 as stated: under `clock0` (a UTC+2 locale) the
`time` field records the 14:00:00 local reading, not the 12:00:00 UTC
reading the claim asserts. -/
theorem c4_event_time_counterexample :
    eventTime (EventLogger.buildEvent clock0 100000000 "" [])
      ≠ some (formatTimestamp clock0.utcnow) := by
  decide

namespace SdrIngest

/-- `SyntheticSDRSource` (src/SDR/sdr_ingest.py:188-193): descriptor fields
plus the running `_sample_index` counter. -/
structure SyntheticSDRSource where
  sample_rate : ℚ
  center_freq : ℚ
  gain : Option ℚ
  sample_index : ℕ

/-- `SyntheticSDRSource.read_samples` (src/SDR/sdr_ingest.py:195-216):
complex-Gaussian noise of amplitude 0.08 (the two `np.random.randn` draws per
sample supplied by the streams `g1`, `g2`) plus a 25 kHz tone gated on for
the first 3 s of every 10 s of nominal time `n0/sr`, with phase-continuous
time base `t = (arange(n) + n0)/sr`; returns the block and the source with
its counter advanced. -/
def SyntheticSDRSource.read_samples (s : SyntheticSDRSource) (P : DspPrims)
    (g1 g2 : ℕ → ℚ) (num_samples : ℕ) :
    List Cplx × SyntheticSDRSource :=
  let sr := s.sample_rate
  let n0 := s.sample_index
  let t : ℕ → ℚ := fun k => ((k : ℚ) + (n0 : ℚ)) / sr
  let noise : List Cplx :=
    (List.range num_samples).map
      (fun k : ℕ => ⟨(8 / 100) * g1 k, (8 / 100) * g2 k⟩)
  let burst_period_s : ℚ := 10
  let burst_on_s : ℚ := 3
  let phase := qmod ((n0 : ℚ) / sr) burst_period_s
  let tone : ℕ → Cplx := fun k =>
    if phase < burst_on_s then P.cis (2 * P.pi * 25000 * t k) else Cplx.zero
  ((List.range num_samples).map
      (fun k : ℕ => Cplx.add (noise.getD k Cplx.zero) (tone k)),
   { s with sample_index := s.sample_index + num_samples })

end SdrIngest

/-- C10. `SyntheticSDRSource.read_samples(n)` returns exactly `n` complex
samples and advances the internal sample counter by exactly `n` (the other
fields are untouched); in particular a read of the scanner's
`BLOCK_SIZE = 4096` is never empty, so a scanner driven by a synthetic
source never terminates through the empty-read end-of-stream check. -/
theorem c10_synthetic_read (P : DspPrims) (g1 g2 : ℕ → ℚ)
    (s : SdrIngest.SyntheticSDRSource) (n : ℕ) :
    (s.read_samples P g1 g2 n).1.length = n ∧
    (s.read_samples P g1 g2 n).2.sample_index = s.sample_index + n ∧
    (s.read_samples P g1 g2 n).2.sample_rate = s.sample_rate ∧
    (s.read_samples P g1 g2 n).2.center_freq = s.center_freq ∧
    (s.read_samples P g1 g2 Scanner.block_size).1 ≠ [] := by
  refine ⟨?_, rfl, rfl, rfl, ?_⟩
  · simp [SdrIngest.SyntheticSDRSource.read_samples]
  · have hlen : (s.read_samples P g1 g2 Scanner.block_size).1.length
        = Scanner.block_size := by
      simp [SdrIngest.SyntheticSDRSource.read_samples]
    intro hnil
    rw [hnil] at hlen
    simp [Scanner.block_size] at hlen

/-- A filesystem path as its `pathlib` components. -/
abbrev FsPath := List String

/-- Typed contents of the files this code writes: a JSON document
(`json.dump`) or raw little-endian complex-float IQ (`ndarray.tofile`). -/
inductive FileData where
  | json (j : Json)
  | iq (samples : List Cplx)

/-- The file store; bundle writing only creates or overwrites whole files
(mode `"w"` / `tofile`). -/
def FileSys := FsPath → Option FileData

/-- Writing a whole file. -/
def fsWrite (fs : FileSys) (p : FsPath) (d : FileData) : FileSys :=
  fun q => if q = p then some d else fs q

/-- `_sha256_file` (src/core/bundles.py:16-21, src/core/sigmf.py:12-17):
stream the file at `p` in 8 KiB chunks through SHA-256; the hash function
itself is abstract, applied to the file's current contents. -/
def sha256_file (h : FileData → String) (fs : FileSys) (p : FsPath) : String :=
  match fs p with
  | some d => h d
  | none => ""

/-- `PurePath.with_suffix` on the final component: strip everything from the
last dot on when one exists, then append the new suffix (the `capture` base
name has no dot, so its suffix is appended). -/
def replaceSuffix (name suffix : String) : String :=
  let cs := name.toList
  if '.' ∈ cs then
    String.mk (((cs.reverse.dropWhile (fun c => c ≠ '.')).drop 1).reverse)
      ++ suffix
  else name ++ suffix

/-- `base_path.with_suffix(suffix)`. -/
def withSuffix (p : FsPath) (suffix : String) : FsPath :=
  p.dropLast ++ [replaceSuffix (p.getLastD "") suffix]

namespace Sigmf

/-- A `{path, sha256}` pair as returned by `write_sigmf` and stored in the
manifest. -/
structure SigEntry where
  path : FsPath
  sha256 : String

/-- The SigMF sidecar dict (src/core/sigmf.py:42-62), `extra` updated into
the `global` namespace. -/
def sigmfMeta (sample_rate center_freq : ℚ) (now : String)
    (extra : List (String × Json)) : Json :=
  Json.obj
    [("global", Json.obj (dictUpdate
        [("version", Json.str "0.0.1"),
         ("core:datatype", Json.str "cf32_le"),
         ("core:sample_rate", Json.num sample_rate),
         ("core:frequency", Json.num center_freq),
         ("core:description", Json.str "AstroTrace event capture"),
         ("core:author", Json.str "AstroTrace"),
         ("core:datetime", Json.str now)] extra)),
     ("captures", Json.arr [Json.obj
        [("core:sample_start", Json.num 0),
         ("core:frequency", Json.num center_freq),
         ("core:datetime", Json.str now)]]),
     ("annotations", Json.arr [])]

/-- `write_sigmf` (src/core/sigmf.py:20-70): write the raw IQ under
`.sigmf-data`, write the sidecar under `.sigmf-meta`, and return both paths
with hashes streamed from disk after both writes.  `now` stands for the
`datetime.now(timezone.utc).isoformat()` reading. -/
def write_sigmf (h : FileData → String) (fs : FileSys) (iq : List Cplx)
    (sample_rate center_freq : ℚ) (base_path : FsPath) (now : String)
    (extra : List (String × Json)) : FileSys × SigEntry × SigEntry :=
  let data_path := withSuffix base_path ".sigmf-data"
  let meta_path := withSuffix base_path ".sigmf-meta"
  let fs1 := fsWrite fs data_path (FileData.iq iq)
  let meta := sigmfMeta sample_rate center_freq now extra
  let fs2 := fsWrite fs1 meta_path (FileData.json meta)
  (fs2, ⟨data_path, sha256_file h fs2 data_path⟩,
    ⟨meta_path, sha256_file h fs2 meta_path⟩)

end Sigmf

namespace Bundles

/-- The manifest dict assembled by `write_event_bundle`
(src/core/bundles.py:50-58). -/
structure Manifest where
  event : Sigmf.SigEntry
  sample_rate_hz : ℚ
  center_freq_hz : ℚ
  mode : String
  artifacts : List Sigmf.SigEntry

/-- The manifest as the JSON document `json.dump` writes. -/
def manifestToJson (m : Manifest) : Json :=
  Json.obj
    [("event", Json.obj
        [("path", Json.str (String.intercalate "/" m.event.path)),
         ("sha256", Json.str m.event.sha256)]),
     ("meta", Json.obj
        [("sample_rate_hz", Json.num m.sample_rate_hz),
         ("center_freq_hz", Json.num m.center_freq_hz),
         ("mode", Json.str m.mode)]),
     ("artifacts", Json.arr (m.artifacts.map (fun e =>
        Json.obj [("path", Json.str (String.intercalate "/" e.path)),
                  ("sha256", Json.str e.sha256)])))]

/-- Zero-pad to three digits. -/
def pad3 (n : ℕ) : String :=
  if n < 10 then "00" ++ toString n
  else if n < 100 then "0" ++ toString n
  else toString n

/-- `f"{freq_mhz:.3f}"`: three decimals (ties resolved by `round`; the
float-level tie-to-even detail is immaterial here). -/
def formatMHz3 (q : ℚ) : String :=
  let m : ℤ := round (q * 1000)
  let sign := if m < 0 then "-" else ""
  sign ++ toString (m.natAbs / 1000) ++ "." ++ pad3 (m.natAbs % 1000)

/-- What `write_event_bundle` produces: the final file store, the bundle
directory, the manifest dict it dumped, and the event file path. -/
structure BundleResult where
  fs : FileSys
  bundle_dir : FsPath
  manifest : Manifest
  event_path : FsPath

/-- `event.get("time") or <now>` (src/core/bundles.py:40): the event's
`time` string when present and non-empty (Python `or` treats the empty string
as falsy), otherwise the current-UTC fallback. -/
def bundleTs (event : List (String × Json)) (fallback_ts : String) : String :=
  match dictGet event "time" with
  | some (Json.str s) => if s = "" then fallback_ts else s
  | _ => fallback_ts

/-- The bundle directory name (src/core/bundles.py:40-42): the timestamp with
`:` removed and spaces replaced by `_`, an underscore, and the frequency in
MHz to three decimals. -/
def bundleName (event : List (String × Json)) (center_freq : ℚ)
    (fallback_ts : String) : String :=
  (((bundleTs event fallback_ts).replace ":" "").replace " " "_") ++ "_"
    ++ formatMHz3 (center_freq / 1000000) ++ "MHz"

/-- `write_event_bundle` (src/core/bundles.py:24-75): derive the bundle name
from the event timestamp and frequency, write `event.json`, hash it, write
the SigMF pair when requested and the IQ block is non-empty, and write
`manifest.json` last.  `sigmf_now` and `fallback_ts` stand for the two
`datetime.now(timezone.utc)` readings (sidecar timestamp; name fallback when
the event lacks a `time`). -/
def write_event_bundle (h : FileData → String) (fs : FileSys)
    (event : List (String × Json)) (iq : Option (List Cplx))
    (sample_rate center_freq : ℚ) (mode : String) (bundle_root : FsPath)
    (save_sigmf : Bool) (sigmf_now fallback_ts : String) : BundleResult :=
  let bundle_dir := bundle_root ++ [bundleName event center_freq fallback_ts]
  let event_path := bundle_dir ++ ["event.json"]
  let fs1 := fsWrite fs event_path (FileData.json (Json.obj event))
  let event_entry : Sigmf.SigEntry := ⟨event_path, sha256_file h fs1 event_path⟩
  if save_sigmf && iq.isSome && !(iq.getD []).isEmpty then
    let sp := Sigmf.write_sigmf h fs1 (iq.getD []) sample_rate center_freq
      (bundle_dir ++ ["capture"]) sigmf_now [("core:mode", Json.str mode)]
    let manifest : Manifest :=
      ⟨event_entry, sample_rate, center_freq, mode, [sp.2.1, sp.2.2]⟩
    let fs3 := fsWrite sp.1 (bundle_dir ++ ["manifest.json"])
      (FileData.json (manifestToJson manifest))
    ⟨fs3, bundle_dir, manifest, event_path⟩
  else
    let manifest : Manifest := ⟨event_entry, sample_rate, center_freq, mode, []⟩
    let fs3 := fsWrite fs1 (bundle_dir ++ ["manifest.json"])
      (FileData.json (manifestToJson manifest))
    ⟨fs3, bundle_dir, manifest, event_path⟩

end Bundles

lemma fsWrite_same (fs : FileSys) (p : FsPath) (d : FileData) :
    fsWrite fs p d p = some d := by
  simp [fsWrite]

lemma fsWrite_ne (fs : FileSys) (p : FsPath) (d : FileData) (q : FsPath)
    (hq : q ≠ p) : fsWrite fs p d q = fs q := by
  simp [fsWrite, hq]

lemma replaceSuffix_capture (s : String) :
    replaceSuffix "capture" s = "capture" ++ s := by
  unfold replaceSuffix
  rw [if_neg (by decide)]

lemma withSuffix_concat (p : FsPath) (base suffix : String) :
    withSuffix (p ++ [base]) suffix = p ++ [replaceSuffix base suffix] := by
  unfold withSuffix
  simp [List.dropLast_concat, List.getLastD_concat]

lemma withSuffix_capture_data (dir : FsPath) :
    withSuffix (dir ++ ["capture"]) ".sigmf-data"
      = dir ++ ["capture.sigmf-data"] := by
  rw [withSuffix_concat, replaceSuffix_capture]
  simp

lemma withSuffix_capture_meta (dir : FsPath) :
    withSuffix (dir ++ ["capture"]) ".sigmf-meta"
      = dir ++ ["capture.sigmf-meta"] := by
  rw [withSuffix_concat, replaceSuffix_capture]
  simp

open Bundles Sigmf in
/-- C1. After `write_event_bundle` returns: `event.json` is on disk and
decodes back to the logged event record; the manifest's stored sha256 for
`event.json` equals the SHA-256 of that file's bytes on disk; the artifact
list is exactly the `capture.sigmf-data` / `capture.sigmf-meta` pair — with
digests equal to the hashes of the bytes on disk at those paths — when
`save_sigmf` is set and the IQ block is non-empty, and empty otherwise; and
`manifest.json`, written last, holds exactly the returned manifest. -/
theorem c1_write_event_bundle (h : FileData → String) (fs : FileSys)
    (event : List (String × Json)) (iq : Option (List Cplx)) (sr cf : ℚ)
    (mode : String) (root : FsPath) (save : Bool) (ts1 ts2 : String) :
    (write_event_bundle h fs event iq sr cf mode root save ts1 ts2).fs
        (write_event_bundle h fs event iq sr cf mode root save ts1 ts2).event_path
      = some (FileData.json (Json.obj event)) ∧
    (write_event_bundle h fs event iq sr cf mode root save ts1 ts2).manifest.event.path
      = (write_event_bundle h fs event iq sr cf mode root save ts1 ts2).event_path ∧
    (write_event_bundle h fs event iq sr cf mode root save ts1 ts2).manifest.event.sha256
      = sha256_file h
          (write_event_bundle h fs event iq sr cf mode root save ts1 ts2).fs
          (write_event_bundle h fs event iq sr cf mode root save ts1 ts2).event_path ∧
    (write_event_bundle h fs event iq sr cf mode root save ts1 ts2).manifest.artifacts
      = (if save && iq.isSome && !(iq.getD []).isEmpty then
          [⟨(write_event_bundle h fs event iq sr cf mode root save ts1 ts2).bundle_dir
              ++ ["capture.sigmf-data"], h (FileData.iq (iq.getD []))⟩,
           ⟨(write_event_bundle h fs event iq sr cf mode root save ts1 ts2).bundle_dir
              ++ ["capture.sigmf-meta"],
            h (FileData.json (sigmfMeta sr cf ts1 [("core:mode", Json.str mode)]))⟩]
         else []) ∧
    (if save && iq.isSome && !(iq.getD []).isEmpty then
      (write_event_bundle h fs event iq sr cf mode root save ts1 ts2).fs
          ((write_event_bundle h fs event iq sr cf mode root save ts1 ts2).bundle_dir
            ++ ["capture.sigmf-data"])
        = some (FileData.iq (iq.getD [])) ∧
      (write_event_bundle h fs event iq sr cf mode root save ts1 ts2).fs
          ((write_event_bundle h fs event iq sr cf mode root save ts1 ts2).bundle_dir
            ++ ["capture.sigmf-meta"])
        = some (FileData.json (sigmfMeta sr cf ts1 [("core:mode", Json.str mode)]))
     else True) ∧
    (write_event_bundle h fs event iq sr cf mode root save ts1 ts2).fs
        ((write_event_bundle h fs event iq sr cf mode root save ts1 ts2).bundle_dir
          ++ ["manifest.json"])
      = some (FileData.json (manifestToJson
          (write_event_bundle h fs event iq sr cf mode root save ts1 ts2).manifest)) := by
  have h1 : ("event.json" : String) ≠ "manifest.json" := by decide
  have h2 : ("event.json" : String) ≠ "capture.sigmf-meta" := by decide
  have h3 : ("event.json" : String) ≠ "capture.sigmf-data" := by decide
  have h4 : ("capture.sigmf-data" : String) ≠ "capture.sigmf-meta" := by decide
  have h5 : ("capture.sigmf-data" : String) ≠ "manifest.json" := by decide
  have h6 : ("capture.sigmf-meta" : String) ≠ "manifest.json" := by decide
  by_cases hc : (save && iq.isSome && !(iq.getD []).isEmpty) = true
  · simp only [write_event_bundle, Sigmf.write_sigmf, hc, if_true,
      withSuffix_capture_data, withSuffix_capture_meta, sha256_file,
      fsWrite_same, fsWrite]
    norm_num
    simp [h1, h2, h3, h4, h5, h6]
  · simp only [write_event_bundle, hc, if_false, Bool.false_eq_true,
      sha256_file, fsWrite_same, fsWrite]
    norm_num
    simp [h1, h2, h3, h4, h5, h6]
